import Mathlib

/-!
Shallow embedding of the `domish` TypeScript package (src/src/ts/server.ts):
the XMLish tokenizer/parser (`Fragment.IterMatches`, `iterMarkers`,
`parseAttributes`, `expandEntities`, `parse`), the DOMish node model
(`Node.appendChild`, `removeChild`, `insertBefore`, `Element` attribute
maps, `Query`/`querySelectorAll`) and the serializers (`iterXMLLines`,
`toXML`, `toHTML`).

JavaScript strings are modelled as `List Char`; JS string primitives
(`substring`, `indexOf`, `trim`) are reproduced with their clamping and
`-1`-sentinel behaviour.  Fallible or possibly non-terminating code
(`parseAttributes` recurses on `text.substring(end + 1)` where `end` may be
`-1`) is fuel-indexed and returns `Option`.
-/

namespace Domish

/-- JS `\s` as used on this repository's ASCII inputs (space, tab, CR, LF,
vertical tab, form feed).  JS additionally treats some exotic Unicode spaces
as `\s`; no input in this development contains them. -/
def isJsSpace (c : Char) : Bool :=
  c = ' ' || c = '\t' || c = '\n' || c = '\r' || c = '\x0b' || c = '\x0c'

/-- `String.prototype.trim` on a char list. -/
def jsTrimL (s : List Char) : List Char :=
  ((s.dropWhile isJsSpace).reverse.dropWhile isJsSpace).reverse

/-- `String.prototype.substring(a, b)`: negative arguments clamp to `0`,
arguments beyond the length clamp to the length, and the two endpoints are
swapped when out of order. -/
def jsSubstringL (s : List Char) (a b : Int) : List Char :=
  let n : Int := s.length
  let a1 := (max 0 (min a n)).toNat
  let b1 := (max 0 (min b n)).toNat
  (s.drop (min a1 b1)).take (max a1 b1 - min a1 b1)

/-- `String.prototype.indexOf(c, k)` for a single character, `none` for JS
`-1`. -/
def jsIndexOfFrom (s : List Char) (c : Char) (k : Nat) : Option Nat :=
  ((s.drop k).findIdx? (· = c)).map (· + k)

/-- Ordered attribute mapping produced by `parseAttributes`: a JS object used
as an insertion-ordered map from names to `string | null` (`none` models JS
`null`, the boolean-attribute value). -/
abbrev AttrMap := List (String × Option String)

/-- JS `obj[name] = v`: overwrite in place if the key exists, else append. -/
def mapSet (m : AttrMap) (k : String) (v : Option String) : AttrMap :=
  if (m.find? (fun kv => kv.1 = k)).isSome then
    m.map (fun kv => if kv.1 = k then (k, v) else kv)
  else m ++ [(k, v)]

/-- One character of `RE_ATTR_SEP = /[=\s]/`. -/
def isAttrSep (c : Char) : Bool := c = '=' || isJsSpace c

/-- `parseAttributes(text, attributes)` from `server.ts`, fuel-indexed
because the source recurses on `text.substring(end + 1).trim()` where `end`
may be the `-1` returned by `indexOf` — in that case `substring(0)` is the
whole input again.  `none` models non-termination (the JS function grows the
call stack forever).  Faithful points: the first `RE_ATTR_SEP` match decides
the branch; `m[0] === "="` keeps quoted values with `indexOf` from
`m.index + 2` and unquoted values to `indexOf(" ", m.index)`; a value whose
first character is a quote is stripped of its first and last characters via
`substring(1, value.length - 1)`; the `=`-at-end branch stores `""` and
returns; the whitespace branch stores `null` names. -/
def parseAttributesF : Nat → List Char → AttrMap → Option AttrMap
  | 0, _, _ => none
  | fuel+1, text, attributes =>
    if text.length = 0 then some attributes else
    match text.findIdx? isAttrSep with
    | none =>
        -- `text.indexOf(" ")` is necessarily `-1` here: a space would have
        -- matched `RE_ATTR_SEP` already, so only the `spaceIndex === -1`
        -- arm of the source is reachable.
        let name := jsTrimL text
        some (if name ≠ [] then mapSet attributes ⟨name⟩ none else attributes)
    | some i =>
      if text.getD i ' ' = '=' then
        let name : String := ⟨jsTrimL (text.take i)⟩
        if i + 1 ≥ text.length then
          -- `attributes[name] = ""; return attributes;` (no emptiness check)
          some (mapSet attributes name (some ""))
        else
          let chr := text.getD (i+1) ' '
          let stop? : Option Nat :=
            if chr = '\'' then jsIndexOfFrom text '\'' (i+2)
            else if chr = '"' then jsIndexOfFrom text '"' (i+2)
            else jsIndexOfFrom text ' ' i
          let value : List Char :=
            match stop? with
            | none => jsTrimL (text.drop (i+1))
            | some e => jsSubstringL text (i+1) (e+1)
          let attributes :=
            if name = "" then attributes
            else if value ≠ [] && (value.headD ' ' = '\'' || value.headD ' ' = '"') then
              mapSet attributes name (some ⟨jsSubstringL value 1 ((value.length : Int) - 1)⟩)
            else
              mapSet attributes name (some ⟨jsTrimL value⟩)
          let rest := match stop? with
            | none => jsTrimL text            -- substring(-1 + 1) = whole text
            | some e => jsTrimL (text.drop (e+1))
          parseAttributesF fuel rest attributes
      else
        let name := jsTrimL (text.take i)
        let attributes :=
          if name ≠ [] then mapSet attributes ⟨name⟩ none else attributes
        parseAttributesF fuel (jsTrimL (text.drop (i+1))) attributes

/-- `parseAttributes(text)` entry point.  Any terminating run of the source
strictly shortens the text on every recursive call, so `length + 1` fuel is
exact: `none` means the JS original never returns. -/
def parseAttributes (text : String) : Option AttrMap :=
  parseAttributesF (text.length + 1) text.data []

/-! ## Tokenizer: the `RE_TAG` grammar and `Fragment.IterMatches`

`RE_TAG` is the module-level regex
`(?<DOCTYPE>...)|(?<COMMENT>...)|(?<CDATA>...)|<tag>` with flags `mg`.  Its
four alternatives are modelled as explicit scanners with JS leftmost-match
semantics: the match is found at the smallest index where some alternative
succeeds, alternatives tried in source order at each index.

Two literal-source caveats, settled in `reTag_pattern_invalid` further
below: the pattern string that the source actually assembles (i) never
closes the `(?<qualname>` group, so the module-level `new RegExp` throws a
`SyntaxError` at load, and (ii) spells the name classes `[\d\w_-]` inside
a template literal, where the unescaped `\d` evaluates to the letter `d`.
The scanners below embed the manifest intent — `qualname` closed right
after the local name (the only reading under which `match.groups.qualname`
can be the element name the tree builder and serializer use) and `[\d\w_-]`
as digits plus word characters — which is the grammar the spec describes.
DOCTYPE, COMMENT and CDATA are unaffected: their source literals evaluate
exactly to the alternatives modelled here. -/
/-- `[\d\w_\-]` as intended — a qualified-name character (`\w` is ASCII
`[A-Za-z0-9_]`).  See the section comment: the literal template evaluates
to `[dw_-]`. -/
def nameChar (c : Char) : Bool := c.isAlphanum || c = '_' || c = '-'

/-- `\w` — an ASCII word character. -/
def wordChar (c : Char) : Bool := c.isAlphanum || c = '_'

/-- Does `s` begin with `pre`? -/
def startsWithL (pre s : List Char) : Bool := s.take pre.length = pre

/-- `String.prototype.toLowerCase` (ASCII, as used here). -/
def lowerStr (s : String) : String := ⟨s.data.map Char.toLower⟩

/-- `String.prototype.toUpperCase` (ASCII, as used here). -/
def upperStr (s : String) : String := ⟨s.data.map Char.toUpper⟩

/-- Does `s` end with `suf`? -/
def jsEndsWithL (s suf : List Char) : Bool :=
  s.reverse.take suf.length = suf.reverse

/-- Index of the first occurrence of `pat` in `s` (leftmost, like a lazy
regex quantifier stopping at the first closing delimiter). -/
def findSubL (pat : List Char) : List Char → Option Nat
  | [] => if pat.isEmpty then some 0 else none
  | c :: rest =>
      if startsWithL pat (c :: rest) then some 0
      else (findSubL pat rest).map (· + 1)

/-- `(?<DOCTYPE>\<\!DOCTYPE\s+(?<doctype>[^\>]+)\>\r?\n)` at the head of
`s`: the literal `<!DOCTYPE`, at least one whitespace, at least one more
character before the first `>`, the `>`, then an optional `\r` and a
required `\n`.  Returns the total match length. -/
def matchDoctype (s : List Char) : Option Nat :=
  if startsWithL "<!DOCTYPE".data s then
    let rest := s.drop 9
    if isJsSpace (rest.headD '>') then
      match rest.findIdx? (· = '>') with
      | some g =>
          if g ≥ 2 then
            match rest.drop (g+1) with
            | '\r' :: '\n' :: _ => some (9 + g + 3)
            | '\n' :: _ => some (9 + g + 2)
            | _ => none
          else none
      | none => none
    else none
  else none

/-- `(?<COMMENT>\<\!--(?<comment>([\r\n]|.)*?)--\>)`: lazy interior up to
the first `-->`. -/
def matchComment (s : List Char) : Option Nat :=
  if startsWithL "<!--".data s then
    (findSubL "-->".data (s.drop 4)).map (fun k => 4 + k + 3)
  else none

/-- `(?<CDATA><\!\[CDATA\[(?<cdata>([\r\n]|.)*?)\]\]\>)`: lazy interior up
to the first `]]>`. -/
def matchCData (s : List Char) : Option Nat :=
  if startsWithL "<![CDATA[".data s then
    (findSubL "]]>".data (s.drop 9)).map (fun k => 9 + k + 3)
  else none

/-- The tail of the generic-tag alternative after the qualified name:
`(?<attrs>\s+[^\>]*)?\s*/?\>`.  When the next character is whitespace the
greedy `attrs` group captures everything up to (excluding) the first `>` —
including any trailing `/` — and the match ends at that `>`.  Otherwise
`attrs` is unmatched and the tail is `>`, or `/` followed by `>`.  Returns
(total length, closing flag, qualified name, raw attribute text). -/
def matchTagTail (consumed : Nat) (closing : Bool) (qualname : List Char)
    (s4 : List Char) : Option (Nat × Bool × String × Option String) :=
  match s4 with
  | [] => none
  | c :: t =>
    if isJsSpace c then
      match s4.findIdx? (· = '>') with
      | some g => some (consumed + g + 1, closing, ⟨qualname⟩, some ⟨s4.take g⟩)
      | none => none
    else if c = '>' then some (consumed + 1, closing, ⟨qualname⟩, none)
    else if c = '/' then
      match t with
      | '>' :: _ => some (consumed + 2, closing, ⟨qualname⟩, none)
      | _ => none
    else none

/-- The generic-tag alternative
`\<(?<closing>/)?(?<qualname>((((?<ns>\w+[\d\w_-]*):)?(?<name>[\d\w_\-]+)))(?<attrs>\s+[^\>]*)?\s*/?\>`
at the head of `s`.  The namespace branch takes the whole leading name-run
when it starts with `\w` and is immediately followed by `:` and a nonempty
name-run (`:` is not a name character, so regex backtracking admits no
other split). -/
def matchTag (s : List Char) : Option (Nat × Bool × String × Option String) :=
  match s with
  | '<' :: s1 =>
    let closing := s1.headD ' ' = '/'
    let s2 := if closing then s1.drop 1 else s1
    let base := if closing then 2 else 1
    let r1 := s2.takeWhile nameChar
    if r1.isEmpty then none else
    let s3 := s2.drop r1.length
    let r2 := (s3.drop 1).takeWhile nameChar
    if wordChar (r1.headD ' ') && s3.headD ' ' = ':' && !r2.isEmpty then
      matchTagTail (base + r1.length + 1 + r2.length) closing
        (r1 ++ ':' :: r2) ((s3.drop 1).drop r2.length)
    else
      matchTagTail (base + r1.length) closing r1 s3
  | _ => none

/-- Which `RE_TAG` alternative matched, with the tag captures. -/
inductive MData where
  | doctypeM
  | commentM
  | cdataM
  | tagM (closing : Bool) (qualname : String) (attrs : Option String)
deriving Repr, DecidableEq

/-- Try the four `RE_TAG` alternatives, in source order, at the head of
`s`.  Returns the match length and data. -/
def matchAlt (s : List Char) : Option (Nat × MData) :=
  match matchDoctype s with
  | some len => some (len, .doctypeM)
  | none =>
    match matchComment s with
    | some len => some (len, .commentM)
    | none =>
      match matchCData s with
      | some len => some (len, .cdataM)
      | none =>
        match matchTag s with
        | some (len, closing, q, a) => some (len, .tagM closing q a)
        | none => none

/-- Leftmost match of `RE_TAG` at an index `≥ i` (the second argument is
the absolute index of the head of the first argument). -/
def scanFrom : List Char → Nat → Option (Nat × Nat × MData)
  | [], _ => none
  | c :: rest, i =>
    match matchAlt (c :: rest) with
    | some (len, md) => some (i, len, md)
    | none => scanFrom rest (i+1)

/-- `RE_TAG.exec(text)` with the regex object's `lastIndex` equal to
`lastIndex`: JS returns `null` (and resets `lastIndex` to 0) when
`lastIndex` exceeds the length, else searches from `lastIndex`. -/
def execFrom (s : List Char) (lastIndex : Nat) : Option (Nat × Nat × MData) :=
  if lastIndex > s.length then none else scanFrom (s.drop lastIndex) lastIndex

/-- `Fragment` from `server.ts`: a (source, start, end) view.  `start`/`end`
are JS numbers (here `Int`), since `slice` can produce values outside
`[0, length]`; `rawtext` clamps via `substring`. -/
structure Frag where
  source : List Char
  start : Int
  stop : Int
deriving Repr, DecidableEq

/-- `Fragment.rawtext` (and `.text`, which returns the raw text as-is). -/
def Frag.rawtextL (f : Frag) : List Char := jsSubstringL f.source f.start f.stop

/-- `Fragment.rawtext` as a `String`. -/
def Frag.rawtext (f : Frag) : String := ⟨f.rawtextL⟩

/-- `Fragment.slice(start, end)`: negative indices count from the
fragment's own end; `end` of `null`/`0` means the fragment's end; the two
computed endpoints are ordered with `min`/`max`. -/
def Frag.slice (f : Frag) (a : Int) (b? : Option Int) : Frag :=
  let i := if a ≥ 0 then f.start + a else f.stop + a
  let j := match b? with
    | some e => if e > 0 then f.start + e else f.stop + e
    | none => f.stop
  ⟨f.source, min i j, max i j⟩

/-- `Fragment.IterMatches(RE_TAG, text)` run to completion, threading the
shared regex object's `lastIndex` cell explicitly (the generator's own
`offset` is a fresh local, but `pattern.exec` reads and writes the regex
object's cursor).  Returns the produced (match?, fragment) pairs and the
final cell value.  Fuel-indexed; every match advances the cell by the match
length (≥ 3), so `length + 2` fuel is always enough. -/
def iterMatchesS : Nat → List Char → Nat → Nat → (List (Option MData × Frag) × Nat)
  | 0, _, _, cell => ([], cell)
  | fuel+1, s, offset, cell =>
    if s.length = 0 then ([], cell) else
    match execFrom s cell with
    | none =>
        ((if offset < s.length then [(none, ⟨s, (offset : Int), (s.length : Int)⟩)] else []), 0)
    | some (idx, len, md) =>
        let pre : List (Option MData × Frag) :=
          if offset ≠ idx then [(none, ⟨s, (offset : Int), (idx : Int)⟩)] else []
        let cur : Option MData × Frag := (some md, ⟨s, (idx : Int), ((idx + len : Nat) : Int)⟩)
        let r := iterMatchesS fuel s (max (offset+1) (idx+len)) (idx+len)
        (pre ++ cur :: r.1, r.2)

/-- One full `IterMatches` run over `s` starting with the shared
`RE_TAG.lastIndex` cell holding `cell`. -/
def iterMatchesFrom (s : String) (cell : Nat) : List (Option MData × Frag) × Nat :=
  iterMatchesS (s.length + 2) s.data 0 cell

/-- Marker kinds (`MarkerType` in the source: Content/Start/End/Inline). -/
inductive MarkerKind where
  | content | startT | endT | inlineT
deriving Repr, DecidableEq

/-- `Marker`: kind (called `type` in the source), fragment, optional
element name, attribute mapping. -/
structure Marker where
  kind : MarkerKind
  fragment : Frag
  name : Option String
  attributes : AttrMap
deriving Repr, DecidableEq

/-- `iterMarkers` applied to a list of `IterMatches` results: unmatched
fragments become Content markers; DOCTYPE/COMMENT/CDATA matches synthesize
Start/Content/End triples over fragment slices; generic tags dispatch on
the closing `/` and on `match[0].endsWith("/>")`.  `none` propagates a
non-terminating `parseAttributes` call. -/
def markersOfMatches : List (Option MData × Frag) → Option (List Marker)
  | [] => some []
  | (none, f) :: rest => do
      let ms ← markersOfMatches rest
      pure (⟨.content, f, none, []⟩ :: ms)
  | (some md, f) :: rest => do
      let ms ← markersOfMatches rest
      match md with
      | .cdataM =>
          pure (⟨.startT, f.slice 0 (some 9), some "!CDATA", []⟩
            :: ⟨.content, f.slice 9 (some (-3)), none, []⟩
            :: ⟨.endT, f.slice (-3) none, some "!CDATA", []⟩ :: ms)
      | .doctypeM =>
          pure (⟨.startT, f.slice 0 (some 10), some "!DOCTYPE", []⟩
            :: ⟨.content, f.slice 10 (some (-2)), none, []⟩
            :: ⟨.endT, f.slice (-2) none, some "!DOCTYPE", []⟩ :: ms)
      | .commentM =>
          pure (⟨.startT, f.slice 0 (some 4), some "!COMMENT", []⟩
            :: ⟨.content, f.slice 4 (some (-3)), none, []⟩
            :: ⟨.endT, f.slice (-3) none, some "!COMMENT", []⟩ :: ms)
      | .tagM closing q attrs? => do
          let amap ← match attrs? with
            | some a => if a.length ≠ 0 then parseAttributes a else pure []
            | none => pure []
          let k := if closing then MarkerKind.endT
                   else if jsEndsWithL f.rawtextL "/>".data then MarkerKind.inlineT
                   else MarkerKind.startT
          pure (⟨k, f, some q, amap⟩ :: ms)

/-- `iterMarkers(text)` with the shared regex cell in its steady state 0. -/
def iterMarkers (s : String) : Option (List Marker) :=
  markersOfMatches (iterMatchesFrom s 0).1

/-! ## Entity decoder (`RE_ENTITY`, `ENTITIES`, `expandEntities`) -/
/-- The fixed named-entity table. -/
def ENTITIES : List (String × String) :=
  [("amp", "&"), ("lt", "<"), ("gt", ">"), ("quot", "\""), ("apos", "\x27")]

/-- Decimal value of a digit run. -/
def natOfDigits (ds : List Char) : Nat :=
  ds.foldl (fun a c => a * 10 + (c.toNat - 48)) 0

/-- A match of `RE_ENTITY = /&(?:#(?<code>\d+)|(?<name>[a-z]+));/gi` at the
head of `s`, as (match length, replacement chunk): numeric references in
`[0, 0x10FFFF]` become the code point (surrogate code points, which JS
would embed as lone surrogates, do not occur in this development's inputs),
out-of-range ones stay verbatim; named references are looked up lowercased
in `ENTITIES`, unknown names stay verbatim. -/
def entityAt (s : List Char) : Option (Nat × List Char) :=
  match s with
  | '&' :: '#' :: rest =>
      let ds := rest.takeWhile Char.isDigit
      if !ds.isEmpty && (rest.drop ds.length).headD ' ' = ';' then
        let len := 2 + ds.length + 1
        let c := natOfDigits ds
        some (len, if c > 0x10FFFF then s.take len else [Char.ofNat c])
      else none
  | '&' :: rest =>
      let ls := rest.takeWhile (fun c => c.isAlpha)
      if !ls.isEmpty && (rest.drop ls.length).headD ' ' = ';' then
        let len := 1 + ls.length + 1
        let nm : String := ⟨ls.map Char.toLower⟩
        match ENTITIES.find? (fun kv => kv.1 = nm) with
        | some kv => some (len, kv.2.data)
        | none => some (len, s.take len)
      else none
  | _ => none

/-- The scan loop of `iexpandEntities` (fuel-indexed; each entity consumes
at least 3 characters, so `length + 1` fuel always suffices). -/
def expandLF : Nat → List Char → List Char
  | 0, s => s
  | _+1, [] => []
  | fuel+1, c :: rest =>
    match entityAt (c :: rest) with
    | some (len, repl) => repl ++ expandLF fuel ((c :: rest).drop (max len 1))
    | none => c :: expandLF fuel rest

/-- `expandEntities(text)`: empty input yields `""`; inputs under 3
characters short-circuit; otherwise scan-and-replace. -/
def expandEntities (s : String) : String :=
  if s.length = 0 then "" else
  if s.length < 3 then s else ⟨expandLF (s.length + 1) s.data⟩

/-! ## Tree builder (`parse`) -/
/-- A parsed node.  `parse` produces Elements (namespace always `null` —
`doc.createElement(name)` receives the full qualified name), Text nodes,
Comment nodes and the Document root.  DocumentFragment, AttributeNode and
the style/event machinery cannot be produced by `parse` and live in the
mutable store model below. -/
inductive PNode where
  | element (name : String) (ns : Option String) (attrs : List (String × String))
      (children : List PNode)
  | textN (data : String)
  | commentN (data : String)
  | documentN (children : List PNode)

/-- An open element on the builder stack: in the source the element object
is appended to its parent at its Start marker and mutated afterwards; here
the frame accumulates the children and the element value is appended to the
parent when the frame is popped, which builds the identical final tree. -/
structure Frame where
  name : String
  attrs : List (String × String)
  children : List PNode

/-- Builder state: the Document's accumulated children plus the stack of
open element frames (innermost first; the Document root of the source's
`stack = [doc]` is the implicit bottom, so `stack.length > 1` is
`openStack ≠ []`). -/
structure BState where
  docChildren : List PNode
  openStack : List Frame

/-- `current.appendChild(n)` on the builder state. -/
def appendCurrent (st : BState) (n : PNode) : BState :=
  match st.openStack with
  | [] => { st with docChildren := st.docChildren ++ [n] }
  | f :: rest => { st with openStack := { f with children := f.children ++ [n] } :: rest }

/-- Attribute copy performed at Start/Inline markers: `setAttribute(k, v)`
per entry in insertion order, `null` becoming `""`.  `parseAttributes`
output has unique keys, so a plain map is the resulting element map. -/
def attrsOfMarker (m : AttrMap) : List (String × String) :=
  m.map (fun kv => (kv.1, kv.2.getD ""))

/-- The End-marker action: `if (stack.length > 1) { stack.pop(); ... }` —
pop and close the innermost open element (appending it to its parent),
or do nothing when only the Document root remains. -/
def popFrame (st : BState) : BState :=
  match st.openStack with
  | [] => st
  | f :: rest =>
      appendCurrent { st with openStack := rest }
        (.element f.name none f.attrs f.children)

/-- One iteration of the `parse` marker loop. -/
def buildStep (st : BState) (m : Marker) : BState :=
  match m.kind with
  | .content =>
      let t := expandEntities m.fragment.rawtext
      if jsTrimL t.data ≠ [] then appendCurrent st (.textN t) else st
  | .startT =>
      let nm := m.name.getD ""    -- the source reads `marker.name!`
      -- `name.startsWith("!")`
      if startsWithL "!".data nm.data then appendCurrent st (.commentN m.fragment.rawtext)
      else { st with openStack := ⟨nm, attrsOfMarker m.attributes, []⟩ :: st.openStack }
  | .endT => popFrame st
  | .inlineT =>
      appendCurrent st (.element (m.name.getD "") none (attrsOfMarker m.attributes) [])

/-- End-of-input: the elements still open were already attached at their
Start markers in the source; here the remaining frames are closed in order
(`openStack.length` pops always empty the stack). -/
def finalizeAux : Nat → BState → List PNode
  | 0, st => st.docChildren
  | k+1, st => finalizeAux k (popFrame st)

/-- Close every frame left open at end of input. -/
def finalizeState (st : BState) : List PNode :=
  finalizeAux st.openStack.length st

/-- `parse(text)`: tokenize, fold the builder, return the Document.
`none` models a non-terminating `parseAttributes` call inside the
tokenizer (the JS `parse` would never return). -/
def parse (s : String) : Option PNode := do
  let ms ← iterMarkers s
  pure (.documentN (finalizeState (ms.foldl buildStep ⟨[], []⟩)))

/-! ## Serialization (`iterXMLLines`, `toXML`, `toHTML`) -/
/-- Recognized serialization options (missing keys default to
comments = true, doctype = true, html = false; see `defaultSerOpts`). -/
structure SerOpts where
  comments : Bool
  doctype : Bool
  html : Bool
deriving Repr, DecidableEq

/-- Defaults of `toXML({})`. -/
def defaultSerOpts : SerOpts := ⟨true, true, false⟩

/-- The names fed to `tags(...)` for `HTML_EMPTY`. -/
def htmlEmptySrc : List String :=
  ["area", "base", "basefont", "br", "col", "frame", "hr", "img", "input",
   "isindex", "link", "meta", "param"]

/-- The `tags` helper: each name is entered as given, lowercased and
uppercased (a `Map` keyed by all three). -/
def tagsTable (names : List String) : List String :=
  names.foldr (fun v acc => v :: lowerStr v :: upperStr v :: acc) []

/-- Void HTML elements. -/
def HTML_EMPTY : List String := tagsTable htmlEmptySrc

/-- Elements never treated as void even when childless. -/
def HTML_NOEMPTY : List String := tagsTable ["slot"]

/-- The XML prolog emitted for Document nodes. -/
def prologLine : String := "<?xml version=\x271.0\x27 charset=\x27utf-8\x27 ?>\n"

/-- The Text-node escape
`data.replace(/&/g,"&amp;").replace(/>/g,"&gt;").replace(/</g,"&lt;")` as a
single character fold (equivalent because no replacement string contains a
later-replaced character). -/
def escapeTextL : List Char → List Char
  | [] => []
  | c :: rest =>
      (if c = '&' then "&amp;".data else if c = '>' then "&gt;".data
       else if c = '<' then "&lt;".data else [c]) ++ escapeTextL rest

/-- String form of `escapeTextL`. -/
def escapeText (s : String) : String := ⟨escapeTextL s.data⟩

/-- The Comment-node escape `data.replace(/>/g, "&gt;")`. -/
def escapeGtL : List Char → List Char
  | [] => []
  | c :: rest => (if c = '>' then "&gt;".data else [c]) ++ escapeGtL rest

/-- String form of `escapeGtL`. -/
def escapeGt (s : String) : String := ⟨escapeGtL s.data⟩

mutual

/-- `iterXMLLines(options)` on a parsed node, as the list of yielded
chunks.  Elements emitted by `parse` have an empty inline-style dictionary,
so of the style block only the `style` attribute relocation survives:
the `style` attribute is withheld from the main attribute loop and emitted
after the other attributes when its value is non-empty ("" is falsy).
`_attributesNS` is empty on every parse-produced element (only
`setAttributeNS`/`setAttributeNode` can fill it), so its loop yields
nothing here. -/
def xmlChunks (opts : SerOpts) : PNode → List String
  | .documentN children =>
      (if opts.doctype then [prologLine] else []) ++ xmlChunksList opts children
  | .element nm ns attrs children =>
      let name := match ns with
        | some n => n ++ ":" ++ nm
        | none => nm
      let empty : Option Bool :=
        if !opts.html then none
        else if HTML_NOEMPTY.contains name then some false
        else if HTML_EMPTY.contains name then some true
        else none
      let styleAttr : Option String :=
        (attrs.find? (fun kv => kv.1 = "style")).map (fun kv => kv.2)
      let attrChunks : List String := attrs.foldr
        (fun kv acc =>
          if kv.1 = "style" then acc
          else (" " ++ kv.1 ++ "=\"" ++ kv.2 ++ "\"") :: acc) []
      let styleChunks : List String := match styleAttr with
        | some v => if v ≠ "" then [" style=\"" ++ v ++ "\""] else []
        | none => []
      let tail : List String :=
        if opts.html && empty = some true then [" >"]
        else if children.isEmpty && empty ≠ some false then [" />"]
        else ">" :: (xmlChunksList opts children ++ ["</" ++ name ++ ">"])
      ("<" ++ name) :: (attrChunks ++ styleChunks ++ tail)
  | .textN d => [escapeText d]
  | .commentN d => if opts.comments then ["<!--" ++ escapeGt d ++ "-->"] else []

/-- Chunks of a child list, in order. -/
def xmlChunksList (opts : SerOpts) : List PNode → List String
  | [] => []
  | n :: rest => xmlChunks opts n ++ xmlChunksList opts rest

end

/-- `toXML(options)`. -/
def toXML (n : PNode) (opts : SerOpts) : String := String.join (xmlChunks opts n)

/-- `toHTML(options)` — `toXMLLines({...options, html: true})`. -/
def toHTML (n : PNode) (opts : SerOpts) : String :=
  String.join (xmlChunks { opts with html := true } n)

/-! ## Structural equivalence up to whitespace (for the round-trip claim) -/
/-- Collapse whitespace runs to a single space (auxiliary to `normWs`). -/
def collapseWsAux : Bool → List Char → List Char
  | _, [] => []
  | prev, c :: rest =>
      if isJsSpace c then
        if prev then collapseWsAux true rest else ' ' :: collapseWsAux true rest
      else c :: collapseWsAux false rest

/-- Whitespace-normalize a text payload: collapse runs, trim ends. -/
def normWs (s : String) : String := ⟨jsTrimL (collapseWsAux false s.data)⟩

/-- Is this (already normalized) node a whitespace-only Text node? -/
def isBlankNode : PNode → Bool
  | .textN d => d = ""
  | _ => false

mutual

/-- Whitespace-normal form of a tree: text payloads whitespace-normalized,
whitespace-only text children dropped.  Two trees are "structurally
equivalent up to whitespace" — same tag names, attributes, text — iff their
normal forms are equal. -/
def normalizePN : PNode → PNode
  | .element n ns a c => .element n ns a (normalizeList c)
  | .textN d => .textN (normWs d)
  | .commentN d => .commentN d
  | .documentN c => .documentN (normalizeList c)

/-- Normalize a child list, dropping whitespace-only text nodes. -/
def normalizeList : List PNode → List PNode
  | [] => []
  | n :: rest =>
      let r := normalizePN n
      if isBlankNode r then normalizeList rest else r :: normalizeList rest

end

mutual

/-- Boolean equality of parsed trees. -/
def pnodeBeq : PNode → PNode → Bool
  | .element n1 ns1 a1 c1, .element n2 ns2 a2 c2 =>
      n1 == n2 && ns1 == ns2 && a1 == a2 && pnodeListBeq c1 c2
  | .textN d1, .textN d2 => d1 == d2
  | .commentN d1, .commentN d2 => d1 == d2
  | .documentN c1, .documentN c2 => pnodeListBeq c1 c2
  | _, _ => false

/-- Boolean equality of parsed-tree lists. -/
def pnodeListBeq : List PNode → List PNode → Bool
  | [], [] => true
  | x :: xs, y :: ys => pnodeBeq x y && pnodeListBeq xs ys
  | _, _ => false

end

/-- Structural equivalence up to whitespace. -/
def structEquiv (a b : PNode) : Bool := pnodeBeq (normalizePN a) (normalizePN b)

/-- The source markup of the void-element claim: `<img src='x.png'/>`. -/
def imgMarkup : String := "<img src=\x27x.png\x27/>"


/-! ## Query engine (`RE_QUERY`, `Query`, `querySelectorAll`)

`RE_QUERY = /((?<type>[.#]?)(?<name>[\w\d_-]+))|(\[(?<attributes>[^\]]+)\])/g`.
The `Query` constructor calls `query.match(RE_QUERY)`.  With a global regex,
`String.prototype.match` returns an array of matched *strings* (no capture
groups), so the constructor's reads of `match.groups` all see `undefined`. -/
/-- A match of `RE_QUERY` at the head of `s` (its length): either
`[.#]?[\w\d_-]+` or `\[[^\]]+\]`, first alternative first. -/
def queryTokenAt (s : List Char) : Option Nat :=
  match s with
  | [] => none
  | c :: rest =>
    if c = '.' || c = '#' then
      let run := rest.takeWhile nameChar
      if !run.isEmpty then some (1 + run.length) else none
    else if nameChar c then
      some ((s.takeWhile nameChar).length)
    else if c = '[' then
      match rest.findIdx? (· = ']') with
      | some k => if k ≥ 1 then some (1 + k + 1) else none
      | none => none
    else none

/-- All matches of `RE_QUERY` over `s`, left to right (the string array that
`query.match(RE_QUERY)` returns; `null` and `[]` behave alike downstream).
Fuel-indexed; every token is nonempty so `length + 1` fuel suffices. -/
def reQueryScanF : Nat → List Char → List (List Char)
  | 0, _ => []
  | _+1, [] => []
  | fuel+1, c :: rest =>
      match queryTokenAt (c :: rest) with
      | some len =>
          (c :: rest).take len :: reQueryScanF fuel ((c :: rest).drop (max len 1))
      | none => reQueryScanF fuel rest

/-- One compiled simple selector. -/
structure Selector where
  typ : String
  nm : String
  attrQ : Option String
deriving Repr, DecidableEq

/-- `new Query(query).selectors`: each match is a plain string, whose
`.groups` is `undefined`, so `match.groups?.attributes` and
`match.groups?.type`/`...name` are all `undefined`: every selector
degenerates to type `""`, name `""`, attributes `null`, regardless of the
matched text. -/
def querySelectors (query : String) : List Selector :=
  (reQueryScanF (query.length + 1) query.data).map (fun _ => ⟨"", "", none⟩)

/-- `nodeType` of a parsed node (`Node.ELEMENT_NODE = 1` etc.). -/
def pnNodeType : PNode → Nat
  | .element _ _ _ _ => 1
  | .textN _ => 3
  | .commentN _ => 8
  | .documentN _ => 9

/-- `nodeName` of a parsed node. -/
def pnNodeName : PNode → String
  | .element n _ _ _ => n
  | .textN _ => "#text"
  | .commentN _ => "#comment"
  | .documentN _ => "#document"

/-- `getAttribute(name)` on a parsed node (Elements read their
default-namespace map; other nodes have none). -/
def pnGetAttribute (n : PNode) (k : String) : Option String :=
  match n with
  | .element _ _ attrs _ => (attrs.find? (fun kv => kv.1 = k)).map (fun kv => kv.2)
  | _ => none

/-- `hasAttribute(name)` on a parsed node. -/
def pnHasAttribute (n : PNode) (k : String) : Bool :=
  (pnGetAttribute n k).isSome

/-- JS `String.prototype.split` with a single-character separator. -/
def splitCharL (sep : Char) : List Char → List Char → List (List Char)
  | acc, [] => [acc.reverse]
  | acc, c :: rest =>
      if c = sep then acc.reverse :: splitCharL sep [] rest
      else splitCharL sep (c :: acc) rest

/-- `classList.contains(value)`:
`(getAttribute("class") || "").split(" ").indexOf(value) >= 0`. -/
def classListContains (n : PNode) (value : String) : Bool :=
  (splitCharL ' ' [] ((pnGetAttribute n "class").getD "").data).contains value.data

/-- `Query.match(node)`: iterate the selectors; a non-Element fails inside
the loop; type `""` compares `nodeName` (case-insensitively as fallback);
`"."` asks the class list; `"#"` compares the `id` attribute; `"@"` checks
attribute presence and returns immediately.  An empty selector list returns
`true` for every node.  (The source's `default:` throws; it is unreachable
for constructor-produced selectors and modelled as `false`.) -/
def queryMatchSels : List Selector → PNode → Bool
  | [], _ => true
  | sel :: rest, n =>
      if pnNodeType n ≠ 1 then false
      else if sel.typ = "" then
        if pnNodeName n ≠ sel.nm && lowerStr (pnNodeName n) ≠ lowerStr sel.nm then false
        else queryMatchSels rest n
      else if sel.typ = "." then
        if !classListContains n sel.nm then false else queryMatchSels rest n
      else if sel.typ = "#" then
        if pnGetAttribute n "id" ≠ some sel.nm then false else queryMatchSels rest n
      else if sel.typ = "@" then
        match sel.attrQ with
        | some anm => if !pnHasAttribute n anm then false else true
        | none => true
      else false

mutual

/-- `iterWalk` with a callback that never returns `false`: the node, then
each child's walk, in order (the visit order in which `querySelectorAll`
accumulates matches). -/
def walkCollect : PNode → List PNode
  | .element n ns a c => .element n ns a c :: walkCollectList c
  | .textN d => [.textN d]
  | .commentN d => [.commentN d]
  | .documentN c => .documentN c :: walkCollectList c

/-- Walk of a child list. -/
def walkCollectList : List PNode → List PNode
  | [] => []
  | n :: rest => walkCollect n ++ walkCollectList rest

end

/-- JS `query.split(/\s+/)` (whitespace runs as separators; a leading or
trailing run contributes an empty field).  Fuel-indexed. -/
def splitWsF : Nat → List Char → List Char → List String
  | 0, acc, _ => [⟨acc.reverse⟩]
  | _+1, acc, [] => [⟨acc.reverse⟩]
  | fuel+1, acc, c :: rest =>
      if isJsSpace c then
        (⟨acc.reverse⟩ : String) :: splitWsF fuel [] (rest.dropWhile isJsSpace)
      else splitWsF fuel (c :: acc) rest

/-- The step loop of `querySelectorAll`: for each whitespace-separated step
(a nonempty `qs`), rebuild a `Query` — from the FULL query string, the
source passes `query`, not `qs` — and re-walk every node in scope,
collecting matches as the next scope; an empty scope returns immediately;
after the loop, `query ? scope : []`. -/
def qsaLoop : List String → List PNode → String → List PNode
  | [], scope, query => if query ≠ "" then scope else []
  | qs :: rest, scope, query =>
      let scope' := if qs ≠ "" then
          let sels := querySelectors query
          scope.foldl (fun acc n => acc ++ (walkCollect n).filter (queryMatchSels sels)) []
        else scope
      if scope'.isEmpty then scope'
      else qsaLoop rest scope' query

/-- `querySelectorAll(query)` rooted at `root`. -/
def querySelectorAll (root : PNode) (query : String) : List PNode :=
  qsaLoop (splitWsF (query.length + 1) [] query.data) [root] query

/-- `querySelector(query)`: the first `querySelectorAll` result
(`undefined` → `none`). -/
def querySelector (root : PNode) (query : String) : Option PNode :=
  (querySelectorAll root query).head?

/-- The selector claim's markup. -/
def selMarkup : String := "<div class=\"a b\"><span id=\"x\"/></div>"

/-- The tree `parse` builds from `selMarkup` (the span also carries the
spurious `/` attribute from the greedy `attrs` capture). -/
def selTree : PNode :=
  .documentN [.element "div" none [("class", "a b")]
    [.element "span" none [("id", "x"), ("/", "")] []]]

/-! ## The mutable Node model (`appendChild`, `removeChild`, `insertBefore`)

The DOM tree is a mutable object graph: each `Node` owns an ordered
`childNodes` array of references and a non-owning `parentNode`
back-reference.  The graph is modelled as a store — a list of node records
indexed by node id — and each mutator as a store transformer that performs
exactly the source's reads and writes in order. -/
/-- `Node.ELEMENT_NODE`. -/
def ELEMENT_NODE : Nat := 1

/-- `Node.DOCUMENT_FRAGMENT_NODE`. -/
def DOCUMENT_FRAGMENT_NODE : Nat := 11

/-- The per-object state touched by the structural mutators. -/
structure NodeRec where
  nodeName : String
  nodeType : Nat
  childNodes : List Nat
  parentNode : Option Nat
deriving Repr, DecidableEq

instance : Inhabited NodeRec := ⟨⟨"", 0, [], none⟩⟩

/-- The object store: node id ↦ record. -/
abbrev Store := List NodeRec

/-- Dereference a node id. -/
def getNode (st : Store) (i : Nat) : NodeRec := st.getD i default

/-- Overwrite a node record. -/
def setNode (st : Store) (i : Nat) (n : NodeRec) : Store := st.set i n

/-- `Array.prototype.indexOf` on a child list, except that a missing
element yields `length` instead of `-1` (so "found" is `< length`). -/
def jsIdxOf : List Nat → Nat → Nat
  | [], _ => 0
  | b :: t, a => if b = a then 0 else jsIdxOf t a + 1

/-- `removeChild(child)`: look the child up with `indexOf`; when found,
`splice(i, 1)` it out and null its `parentNode`; otherwise do nothing.  The
source returns `this`; only the store is modelled. -/
def removeChild (st : Store) (self child : Nat) : Store :=
  let s := getNode st self
  let i := jsIdxOf s.childNodes child
  if i < s.childNodes.length then
    let st1 := setNode st self { s with childNodes := s.childNodes.eraseIdx i }
    setNode st1 child { getNode st1 child with parentNode := none }
  else st

/-- `appendChild(node)`: a DocumentFragment is spliced — a snapshot of its
children is appended one by one (fuel bounds that recursion; the
non-fragment path is pure) — otherwise the node is first detached from its
current parent (`removeChild` plus an explicit `parentNode = null`), then
pushed onto `childNodes` and re-parented.  The source returns `this`. -/
def appendChildF : Nat → Store → Nat → Nat → Store
  | fuel, st, self, node =>
    let n := getNode st node
    if n.nodeType = DOCUMENT_FRAGMENT_NODE then
      match fuel with
      | 0 => st
      | fuel+1 => n.childNodes.foldl (fun acc c => appendChildF fuel acc self c) st
    else
      let st1 := match n.parentNode with
        | some p =>
            let st' := removeChild st p node
            setNode st' node { getNode st' node with parentNode := none }
        | none => st
      let s := getNode st1 self
      let st2 := setNode st1 self { s with childNodes := s.childNodes ++ [node] }
      setNode st2 node { getNode st2 node with parentNode := some self }

/-- `Array.prototype.splice(i, 0, a)`: insert at `i`, clamped to the
length. -/
def spliceInsert (l : List Nat) (i : Nat) (a : Nat) : List Nat :=
  l.take i ++ a :: l.drop i

/-- The `insertBefore` failure message. -/
def notFoundMsg : String :=
  "NotFoundError: The reference node is not a child of this node"

/-- `insertBefore(newNode, referenceNode)`: a `null` reference delegates to
`appendChild` (returning its result, `this`); an absent reference throws
`NotFoundError` before any mutation (the error carries the store at the
throw, which is the entry store); a DocumentFragment is spliced child by
child before the reference; otherwise detach, `splice(i, 0, newNode)` at
the index computed BEFORE the detach, and re-parent, returning `newNode`. -/
def insertBeforeF : Nat → Store → Nat → Nat → Option Nat →
    Except (String × Store) (Store × Nat)
  | fuel, st, self, newNode, none => .ok (appendChildF fuel st self newNode, self)
  | fuel, st, self, newNode, some ref =>
      let s := getNode st self
      let i := jsIdxOf s.childNodes ref
      if i < s.childNodes.length then
        let n := getNode st newNode
        if n.nodeType = DOCUMENT_FRAGMENT_NODE then
          match fuel with
          | 0 => .ok (st, newNode)
          | fuel+1 =>
              match n.childNodes.foldlM
                  (fun acc c => (insertBeforeF fuel acc self c (some ref)).map (fun r => r.1))
                  st with
              | .ok st' => .ok (st', newNode)
              | .error e => .error e
        else
          let st1 := match n.parentNode with
            | some p => removeChild st p newNode
            | none => st
          let s2 := getNode st1 self
          let st2 := setNode st1 self { s2 with childNodes := spliceInsert s2.childNodes i newNode }
          .ok (setNode st2 newNode { getNode st2 newNode with parentNode := some self }, newNode)
      else .error (notFoundMsg, st)

/-- Parent/child coherence: duplicate-free child lists, membership in a
child list iff the back-reference points there, and in-range parent
references. -/
def Coherent (st : Store) : Prop :=
  (∀ p, p < st.length → (getNode st p).childNodes.Nodup)
  ∧ (∀ p c, p < st.length → c < st.length →
      (c ∈ (getNode st p).childNodes ↔ (getNode st c).parentNode = some p))
  ∧ (∀ c, c < st.length → ∀ p, (getNode st c).parentNode = some p → p < st.length)

/-! ## Element attribute storage (`_attributes` / `_attributesNS`)

An Element holds two collections: the default-namespace insertion-ordered
map `_attributes : Map<string, AttributeNode>` and the per-namespace map
`_attributesNS : Map<string, Map<string, AttributeNode>>`.  An
`AttributeNode`'s `value` getter resolves through the owner's map back to
the stored node's `_value`, so a map entry is modelled by its name and
string value directly. -/
/-- `Map.prototype.set` on an insertion-ordered map: overwrite in place at
the existing key, else append. -/
def omapSet : List (String × String) → String → String → List (String × String)
  | [], k, v => [(k, v)]
  | kv :: t, k, v => if kv.1 = k then (k, v) :: t else kv :: omapSet t k v

/-- `Map.prototype.get` (`none` for `undefined`). -/
def omapGet (m : List (String × String)) (k : String) : Option String :=
  (m.find? (fun kv => kv.1 = k)).map (fun kv => kv.2)

/-- `Map.prototype.delete`. -/
def omapDelete (m : List (String × String)) (k : String) : List (String × String) :=
  m.filter (fun kv => kv.1 ≠ k)

/-- `setAttributeNS`'s write into `_attributesNS`: make sure the namespace
map exists (`if (!has(ns)) set(ns, new Map())`), then set the name. -/
def nsMapSet : List (String × List (String × String)) → String → String → String →
    List (String × List (String × String))
  | [], ns, k, v => [(ns, [(k, v)])]
  | kv :: t, ns, k, v =>
      if kv.1 = ns then (ns, omapSet kv.2 k v) :: t else kv :: nsMapSet t ns k v

/-- The attribute-relevant state of one `Element`. -/
structure ElemState where
  attrs : List (String × String)
  attrsNS : List (String × List (String × String))
  style : List (String × String)
deriving Repr, DecidableEq

/-- `setAttribute(name, value)`: a fresh `AttributeNode` bound to this
element whose value-setter writes `_attributes.set(name, node)`. -/
def setAttribute (e : ElemState) (k v : String) : ElemState :=
  { e with attrs := omapSet e.attrs k v }

/-- `setAttributeNS(ns, name, value)`: writes only `_attributesNS`. -/
def setAttributeNS (e : ElemState) (ns k v : String) : ElemState :=
  { e with attrsNS := nsMapSet e.attrsNS ns k v }

/-- `hasAttribute(name)`: `this._attributes.has(name)`. -/
def hasAttribute (e : ElemState) (k : String) : Bool :=
  (omapGet e.attrs k).isSome

/-- `getAttribute(name)`: `attr ? attr.value : null` over `_attributes`
(`attr.value` resolves to the stored `_value`). -/
def getAttribute (e : ElemState) (k : String) : Option String :=
  omapGet e.attrs k

/-- `getAttributeNode(name)`: `this._attributes.get(name) || null`,
modelled as the (name, value) entry. -/
def getAttributeNode (e : ElemState) (k : String) : Option (String × String) :=
  e.attrs.find? (fun kv => kv.1 = k)

/-- `getAttributeNS(ns, name)`. -/
def getAttributeNS (e : ElemState) (ns k : String) : Option String :=
  match e.attrsNS.find? (fun kv => kv.1 = ns) with
  | some kv => omapGet kv.2 k
  | none => none

/-- `hasAttributeNS(ns, name)`:
`this._attributesNS.get(namespace)?.has(name) || false`. -/
def hasAttributeNS (e : ElemState) (ns k : String) : Bool :=
  match e.attrsNS.find? (fun kv => kv.1 = ns) with
  | some kv => (omapGet kv.2 k).isSome
  | none => false

/-- `removeAttribute(name)`: reset the inline style when the name is
`style`; delete from `_attributes`; delete from every per-namespace map,
dropping namespace keys whose map becomes empty. -/
def removeAttribute (e : ElemState) (k : String) : ElemState :=
  { style := if k = "style" then [] else e.style,
    attrs := omapDelete e.attrs k,
    attrsNS := (e.attrsNS.map (fun kv => (kv.1, omapDelete kv.2 k))).filter
      (fun kv => ¬ kv.2.isEmpty) }

/-! ## The literal `RE_TAG` pattern string

`RE_TAG` is built at module load with `new RegExp([...].join(""), "mg")`
from three plain string literals and one template literal.  JS
string/template escape evaluation keeps `\\` as one backslash, maps `\n`,
`\r` etc. to control characters, and drops the backslash of any
NonEscapeCharacter — so the template literal's `\d` is the letter `d`.
The four source literals are embedded verbatim (Lean `\\` = one source
backslash) and evaluated below, to settle what pattern string the JS
engine actually receives. -/

/-- JS string/template escape evaluation (covering the escapes that occur
in the `RE_TAG` source literals). -/
def jsLiteralEval : List Char → List Char
  | [] => []
  | '\\' :: c :: rest =>
      (if c = 'n' then '\n' else if c = 'r' then '\r' else if c = 't' then '\t'
       else if c = 'f' then '\x0c' else if c = 'v' then '\x0b'
       else c) :: jsLiteralEval rest
  | c :: rest => c :: jsLiteralEval rest

/-- The four source literals of `RE_TAG`, character for character (the
fourth is the template literal of the generic-tag alternative). -/
def reTagSrcParts : List String :=
  ["(?<DOCTYPE>\\\\<\\\\!DOCTYPE\\\\s+(?<doctype>[^\\\\>]+)\\\\>\\r?\\n)|",
   "(?<COMMENT>\\\\<\\\\!--(?<comment>([\\r\\n]|.)*?)--\\\\>)|",
   "(?<CDATA><\\\\!\\\\[CDATA\\\\[(?<cdata>([\\r\\n]|.)*?)\\\\]\\\\]\\\\>)|",
   "\\\\<(?<closing>/)?(?<qualname>((((?<ns>\\\\w+[\\d\\w_-]*):)?(?<name>[\\d\\w_\\-]+)))(?<attrs>\\\\s+[^\\\\>]*)?\\\\s*/?\\\\>"]

/-- The pattern string handed to `new RegExp(..., "mg")`. -/
def reTagPatternChars : List Char :=
  (reTagSrcParts.map (fun s => jsLiteralEval s.data)).flatten

/-- Group-nesting depth of a regex pattern: `(` opens and `)` closes a
group outside character classes; a backslash escapes the next character.
A well-formed pattern ends at depth 0; a positive final depth means an
unterminated group, on which `new RegExp` throws a `SyntaxError`. -/
def regexGroupDepth : List Char → Bool → Int → Int
  | [], _, d => d
  | '\\' :: rest, inClass, d =>
      match rest with
      | [] => d
      | _ :: rest2 => regexGroupDepth rest2 inClass d
  | '[' :: rest, false, d => regexGroupDepth rest true d
  | ']' :: rest, true, d => regexGroupDepth rest false d
  | '(' :: rest, false, d => regexGroupDepth rest false (d+1)
  | ')' :: rest, false, d => regexGroupDepth rest false (d-1)
  | _ :: rest, inClass, d => regexGroupDepth rest inClass d

/-! ## Theorems -/

set_option maxRecDepth 8192 in
/-- The `RE_TAG` pattern, as the JS engine receives it, leaves one group
unterminated: `(?<qualname>` is never closed (the tag alternative has
eight `(` against seven `)`), so the module-level
`new RegExp(pattern, "mg")` throws a `SyntaxError` ("unterminated group")
the moment the module is evaluated — `parse` can never run as shipped.
Independently, the template literal's unescaped `\d` evaluates to the
letter `d`, so the name capture that reaches the engine is
`(?<name>[dw_-]+)`: were the group balanced, element names could only be
spelt with the letters `d`, `w`, `_` and `-`.  The tokenizer model in this
file (`matchTag` and friends) therefore embeds the manifest intent — the
`qualname` group closed after the local name, `[\d\w_-]` as digits plus
word characters — which is the reading the spec describes and the only one
under which the module loads at all. -/
theorem reTag_pattern_invalid :
    regexGroupDepth reTagPatternChars false 0 = 1
    ∧ (findSubL "(?<name>[dw_-]+)".data reTagPatternChars).isSome = true := by
  exact ⟨rfl, rfl⟩

/-- On `"a=1"` one step of `parseAttributes` binds `a ↦ "1"` and recurses on
the very same text. -/
theorem parseAttributesF_a1_step (fuel : Nat) (acc : AttrMap) :
    parseAttributesF (fuel+1) ("a=1".data) acc
      = parseAttributesF fuel ("a=1".data) (mapSet acc "a" (some "1")) := rfl

/-- C1: the claim states `parseAttributes` terminates on every input, in
particular on `"a=1"`.  It does not: with the last attribute's unquoted
value at end of input, `indexOf(" ", m.index)` is `-1`, so the recursive
call is `parseAttributes(text.substring(0).trim())` — the untouched input —
and the function recurses forever (a stack overflow in JS).  No amount of
fuel makes the embedded function return.  (Separately, the module that
exports `parseAttributes` cannot even be imported as shipped: the
module-level `RE_TAG` pattern is ill-formed; see
`reTag_pattern_invalid`.) -/
theorem C1_parseAttributes_diverges_on_a1 :
    ∀ (fuel : Nat) (acc : AttrMap), parseAttributesF fuel ("a=1".data) acc = none := by
  intro fuel
  induction fuel with
  | zero => intro _; rfl
  | succ n ih =>
      intro acc
      rw [parseAttributesF_a1_step]
      exact ih _

/-- On `a="xy` (opening quote never closed) one step binds `a ↦ "x"` — the
rest of the string with BOTH its first and last characters stripped by
`substring(1, value.length - 1)` — and recurses on the same text. -/
theorem parseAttributesF_unclosed_step (fuel : Nat) (acc : AttrMap) :
    parseAttributesF (fuel+1) ("a=\"xy".data) acc
      = parseAttributesF fuel ("a=\"xy".data) (mapSet acc "a" (some "x")) := rfl

/-- C9: the claim states that a value opening with a quote that is never
closed gets "rest of string, trimmed" as its value with no error.  On
`a="xy` the code instead (a) stores `"x"` — the trimmed rest `"xy` loses its
first AND last character to the quote-stripping `substring(1, length - 1)` —
and (b) never returns: `indexOf('"', m.index + 2)` is `-1`, so the function
recurses on the whole input forever.  (As with C1, the exporting module
additionally fails to import at all; see `reTag_pattern_invalid`.) -/
theorem C9_parseAttributes_unclosed_quote :
    (∀ (fuel : Nat) (acc : AttrMap), parseAttributesF fuel ("a=\"xy".data) acc = none)
    ∧ (∀ (fuel : Nat) (acc : AttrMap),
        parseAttributesF (fuel+1) ("a=\"xy".data) acc
          = parseAttributesF fuel ("a=\"xy".data) (mapSet acc "a" (some "x"))) := by
  refine ⟨?_, fun fuel acc => parseAttributesF_unclosed_step fuel acc⟩
  intro fuel
  induction fuel with
  | zero => intro _; rfl
  | succ n ih =>
      intro acc
      rw [parseAttributesF_unclosed_step]
      exact ih _

/-- Sanity: the spec's own worked example
`parseAttributes("a=\"1\" b c=\"x y\" d=")` terminates and yields
`a="1", b=null, c="x y", d=""`. -/
theorem parseAttributes_spec_example :
    parseAttributes "a=\"1\" b c=\"x y\" d="
      = some [("a", some "1"), ("b", none), ("c", some "x y"), ("d", some "")] := by
  rfl

/-- Sanity: `parse "<a/>"` yields a Document with one empty, attribute-less
`a` element. -/
theorem parse_inline_a :
    parse "<a/>" = some (.documentN [.element "a" none [] []]) := by
  rfl

/-- C2: the round-trip claim fails twice over.  As shipped, `parse` cannot
run at all: `RE_TAG`'s pattern has an unterminated group, so the module
throws a `SyntaxError` at load (first conjunct; see
`reTag_pattern_invalid`).  And under the manifestly intended tokenizer the
round trip still fails, already on the well-formed markup `"<a/>"`:
`toXML(parse("<a/>"))` is the XML prolog followed by `<a />`; re-parsing
that output (a) turns the prolog — which the tokenizer cannot recognize —
into a Text child of the Document, and (b) feeds the attribute text ` /`
of `<a />` to `parseAttributes`, which invents an attribute named `/`.
The re-parsed tree is not structurally equivalent to the original even
after dropping whitespace-only text and normalizing whitespace. -/
theorem C2_roundtrip_fails_on_inline_a :
    regexGroupDepth reTagPatternChars false 0 = 1
    ∧ (do
      let t ← parse "<a/>"
      let t2 ← parse (toXML t defaultSerOpts)
      pure (structEquiv t2 t)) = some false
    ∧ (parse "<a/>").map (fun t => toXML t defaultSerOpts)
        = some (prologLine ++ "<a />")
    ∧ parse (prologLine ++ "<a />")
        = some (.documentN [.textN prologLine, .element "a" none [("/", "")] []]) := by
  exact ⟨reTag_pattern_invalid.1, rfl, rfl, rfl⟩

/-- C4: as shipped, the claimed parse cannot run — `RE_TAG`'s pattern has
an unterminated group and the module throws a `SyntaxError` at load (first
conjunct; see `reTag_pattern_invalid`).  Under the manifestly intended
tokenizer the claim still fails: the greedy `attrs` capture includes the
trailing `/` of the self-closing tag, so `parseAttributes` receives
` src='x.png'/` and stores a spurious boolean attribute named `/` (which
`parse` turns into `/=""`); and the void-element branch closes with a bare
` >`.  The emitted element markup is `<img src="x.png" /="" >` — two
attributes and no `/>` — not the claimed single-attribute
`<img src="x.png" />` (on the whole Document, `toHTML` additionally
prepends the XML prolog). -/
theorem C4_void_img_serialization :
    regexGroupDepth reTagPatternChars false 0 = 1
    ∧ parse imgMarkup
      = some (.documentN [.element "img" none [("src", "x.png"), ("/", "")] []])
    ∧ toHTML (PNode.element "img" none [("src", "x.png"), ("/", "")] []) defaultSerOpts
        = "<img src=\"x.png\" /=\"\" >"
    ∧ toHTML (PNode.documentN [PNode.element "img" none [("src", "x.png"), ("/", "")] []])
        defaultSerOpts
        = prologLine ++ "<img src=\"x.png\" /=\"\" >"
    ∧ "<img src=\"x.png\" /=\"\" >" ≠ "<img src=\"x.png\" />" := by
  refine ⟨reTag_pattern_invalid.1, rfl, rfl, rfl, by decide⟩

/-- C5 counterexample: on `<div><!--c-->X</div>` the code (under the
manifestly intended `RE_TAG` — as shipped the module throws at load, first
conjunct, see `reTag_pattern_invalid`) appends the Comment node `"<!--"`
(the Start marker's raw fragment is just the opening delimiter) AND a Text
node `"c"` for the interior Content marker to the div; the synthesized
`!COMMENT` End marker then pops the div, so the following `"X"` lands on
the Document and `</div>` is ignored at depth 1.  The claim's collapsed
single-Comment tree (with `X` still inside the div) is refuted. -/
theorem C5_comment_construct_counterexample :
    regexGroupDepth reTagPatternChars false 0 = 1
    ∧ parse "<div><!--c-->X</div>"
      = some (.documentN
          [.element "div" none [] [.commentN "<!--", .textN "c"], .textN "X"])
    ∧ (parse "<div><!--c-->X</div>").map
        (fun t => pnodeBeq t
          (.documentN [.element "div" none [] [.commentN "<!--", .textN "X"]]))
        = some false := by
  exact ⟨reTag_pattern_invalid.1, rfl, rfl⟩

/-- C5 amended: a Start marker whose name begins with `!` appends exactly
one Comment node carrying the marker's raw fragment text (the opening
delimiter) to the current container and touches nothing else; the
construct's interior Content marker is handled by the ordinary Content
rule, appending a Text node when the entity-expanded text is non-blank;
and the construct's synthesized End marker pops the open-element stack like
any End marker whenever an element is open (`stack.length > 1`). -/
theorem C5_special_constructs_amended (st : BState) (f : Frag) (nm : String)
    (ats : AttrMap) (h : startsWithL "!".data nm.data = true) :
    buildStep st ⟨.startT, f, some nm, ats⟩ = appendCurrent st (.commentN f.rawtext)
    ∧ (∀ (f2 : Frag) (nm2 : Option String) (ats2 : AttrMap),
        (buildStep st ⟨.endT, f2, nm2, ats2⟩).openStack.length
          = st.openStack.length - 1)
    ∧ (∀ f3 : Frag, jsTrimL (expandEntities f3.rawtext).data ≠ [] →
        buildStep st ⟨.content, f3, none, []⟩
          = appendCurrent st (.textN (expandEntities f3.rawtext))) := by
  refine ⟨?_, ?_, ?_⟩
  · simp [buildStep, h]
  · intro f2 nm2 ats2
    simp only [buildStep, popFrame]
    cases hs : st.openStack with
    | nil => simp [hs]
    | cons fr rest =>
        cases rest with
        | nil => simp [appendCurrent]
        | cons g t => simp [appendCurrent]
  · intro f3 h3
    simp [buildStep, h3]

/-- Witness for `C5_special_constructs_amended` at the comment construct of
`<div><!--c-->X</div>`. -/
theorem C5_special_constructs_amended_witness :
    (startsWithL "!".data "!COMMENT".data = true)
    ∧ buildStep ⟨[], []⟩ ⟨.startT, ⟨"<!--c-->".data, 0, 4⟩, some "!COMMENT", []⟩
        = appendCurrent ⟨[], []⟩ (.commentN (Frag.rawtext ⟨"<!--c-->".data, 0, 4⟩)) :=
  ⟨rfl, (C5_special_constructs_amended ⟨[], []⟩ ⟨"<!--c-->".data, 0, 4⟩
    "!COMMENT" [] rfl).1⟩

/-- C6: the tokenizer as shipped fails the claim at the most basic level:
`RE_TAG`'s pattern is syntactically invalid, so the module throws at load
(first conjunct; see `reTag_pattern_invalid`).  With the pattern repaired
to its manifest intent, the claim still fails: `RE_TAG` is ONE
module-level regex object and `pattern.exec` reads and writes its
`lastIndex` — process-wide shared cursor state.  A run of
`Fragment.IterMatches(RE_TAG, "<a>")` abandoned after its first yield
leaves `lastIndex = 3`; a subsequent (or interleaved) tokenization of
`"<b>"` then starts its search at 3, finds no match, and degrades the
whole input to one unmatched Content fragment instead of the Start marker
that an isolated tokenization produces. -/
theorem C6_shared_lastIndex_interference :
    regexGroupDepth reTagPatternChars false 0 = 1
    ∧ execFrom ("<a>".data) 0 = some (0, 3, .tagM false "a" none)
    ∧ (iterMatchesFrom "<b>" 3).1 = [(none, ⟨"<b>".data, 0, 3⟩)]
    ∧ (iterMatchesFrom "<b>" 0).1
        = [(some (.tagM false "b" none), ⟨"<b>".data, 0, 3⟩)]
    ∧ markersOfMatches (iterMatchesFrom "<b>" 3).1
        ≠ markersOfMatches (iterMatchesFrom "<b>" 0).1 := by
  refine ⟨reTag_pattern_invalid.1, rfl, rfl, rfl, by decide⟩

/-- C3: on the tree parsed (under the manifestly intended `RE_TAG`; as
shipped `parse` throws at module load, first conjunct, see
`reTag_pattern_invalid`) from `<div class="a b"><span id="x"/></div>`,
every one of the claim's queries returns NOTHING.  `query.match(RE_QUERY)`
with a global regex yields plain strings; the constructor's
`match.groups?...` reads then see `undefined`, so every compiled selector
is type `""` name `""`, which matches no element with a nonempty
`nodeName`: `querySelector("#x")` is `undefined` and both
`querySelectorAll(".a")` and `querySelectorAll("div span")` are empty, not
the claimed span/div results. -/
theorem C3_selectors_match_nothing :
    regexGroupDepth reTagPatternChars false 0 = 1
    ∧ parse selMarkup = some selTree
    ∧ querySelectorAll selTree "#x" = []
    ∧ querySelector selTree "#x" = none
    ∧ querySelectorAll selTree ".a" = []
    ∧ querySelectorAll selTree "div span" = [] := by
  exact ⟨reTag_pattern_invalid.1, rfl, rfl, rfl, rfl, rfl⟩

/-! Store lemmas. -/
/-- `setNode` preserves the store size. -/
theorem length_setNode (st : Store) (i : Nat) (x : NodeRec) :
    (setNode st i x).length = st.length := by
  simp [setNode]

/-- Reading back a written record (ids in range). -/
theorem getNode_setNode_self (st : Store) (i : Nat) (x : NodeRec)
    (h : i < st.length) : getNode (setNode st i x) i = x := by
  induction st generalizing i with
  | nil => simp at h
  | cons b t ih =>
      cases i with
      | zero => simp [getNode, setNode]
      | succ j =>
          simp only [getNode, setNode, List.set, List.getD, List.get?]
          exact ih j (by simpa using h)

/-- Writes to other ids are invisible. -/
theorem getNode_setNode_ne (st : Store) (i j : Nat) (x : NodeRec)
    (h : i ≠ j) : getNode (setNode st i x) j = getNode st j := by
  induction st generalizing i j with
  | nil => simp [getNode, setNode]
  | cons b t ih =>
      cases i with
      | zero =>
          cases j with
          | zero => exact absurd rfl h
          | succ k => simp [getNode, setNode, List.getD]
      | succ i' =>
          cases j with
          | zero => simp [getNode, setNode, List.getD]
          | succ k =>
              simp only [getNode, setNode, List.set, List.getD, List.get?]
              exact ih i' k (fun hik => h (by simp [hik]))

/-- `jsIdxOf` finds an index below the length exactly for members. -/
theorem jsIdxOf_lt_length_iff (l : List Nat) (a : Nat) :
    jsIdxOf l a < l.length ↔ a ∈ l := by
  induction l with
  | nil => simp [jsIdxOf]
  | cons b t ih =>
      by_cases hb : b = a
      · simp [jsIdxOf, hb]
      · simp [jsIdxOf, hb, Nat.succ_lt_succ_iff, ih, Ne.symm hb]

/-- Erasing a member at its `jsIdxOf` removes it for good in a
duplicate-free list. -/
theorem not_mem_eraseIdx_jsIdxOf (l : List Nat) (a : Nat) (hnd : l.Nodup) :
    a ∉ l.eraseIdx (jsIdxOf l a) := by
  induction l with
  | nil => simp
  | cons b t ih =>
      by_cases hb : b = a
      · subst hb
        simpa [jsIdxOf] using (List.nodup_cons.mp hnd).1
      · simp only [jsIdxOf, hb, if_false, List.eraseIdx_cons_succ, List.mem_cons]
        rintro (rfl | hmem)
        · exact hb rfl
        · exact ih (List.nodup_cons.mp hnd).2 hmem

/-- `removeChild` only writes two records; its size is unchanged. -/
theorem length_removeChild (st : Store) (p n : Nat) :
    (removeChild st p n).length = st.length := by
  unfold removeChild
  by_cases h : jsIdxOf (getNode st p).childNodes n < (getNode st p).childNodes.length
  · simp [h, length_setNode]
  · simp [h]

/-- Characterization of a successful `removeChild(p, n)` (with `n` a child
of `p`): `p`'s child list loses the first occurrence of `n`, `n`'s parent
becomes `null`, and no other field of any record changes. -/
theorem removeChild_getNode (st : Store) (p n : Nat) (hp : p < st.length)
    (hn : n < st.length) (hmem : n ∈ (getNode st p).childNodes) :
    ∀ q, q < st.length →
      getNode (removeChild st p n) q
        = { getNode st q with
            childNodes := if q = p
              then (getNode st p).childNodes.eraseIdx
                     (jsIdxOf (getNode st p).childNodes n)
              else (getNode st q).childNodes,
            parentNode := if q = n then none else (getNode st q).parentNode } := by
  intro q hq
  have hfound : jsIdxOf (getNode st p).childNodes n
      < (getNode st p).childNodes.length :=
    (jsIdxOf_lt_length_iff _ _).mpr hmem
  unfold removeChild
  rw [if_pos hfound]
  by_cases hqn : q = n
  · subst hqn
    rw [getNode_setNode_self _ _ _ (by rw [length_setNode]; exact hq)]
    by_cases hqp : q = p
    · subst hqp
      rw [getNode_setNode_self _ _ _ hq]
      simp
    · rw [getNode_setNode_ne _ _ _ _ (fun h => hqp h.symm)]
      simp [hqp]
  · rw [getNode_setNode_ne _ _ _ _ (fun h => hqn h.symm)]
    by_cases hqp : q = p
    · subst hqp
      rw [getNode_setNode_self _ _ _ hq]
      simp [hqn]
    · rw [getNode_setNode_ne _ _ _ _ (fun h => hqp h.symm)]
      simp [hqp, hqn]

/-- C7 counterexample: the claim quantifies over ANY nodes `A`, `N`.
(a) `removeChild(A, N)` with `N` not a child of `A` (here `N` is a child of
`B`, id 1) is a no-op, so `N.parentNode` remains `B`, not `null`.
(b) `appendChild(A, N)` with `N` a DocumentFragment (id 3) splices the
fragment's children: afterwards the fragment's own `parentNode` is still
`null` and `A`'s children contain the fragment zero times, not once. -/
theorem C7_counterexample :
    (getNode (removeChild
        [⟨"a", 1, [], none⟩, ⟨"b", 1, [2], none⟩, ⟨"n", 1, [], some 1⟩,
         ⟨"document-fragment", 11, [4], none⟩, ⟨"m", 1, [], some 3⟩] 0 2) 2).parentNode
      = some 1
    ∧ (getNode (appendChildF 2
        [⟨"a", 1, [], none⟩, ⟨"b", 1, [2], none⟩, ⟨"n", 1, [], some 1⟩,
         ⟨"document-fragment", 11, [4], none⟩, ⟨"m", 1, [], some 3⟩] 0 3) 3).parentNode
      = none
    ∧ ((getNode (appendChildF 2
        [⟨"a", 1, [], none⟩, ⟨"b", 1, [2], none⟩, ⟨"n", 1, [], some 1⟩,
         ⟨"document-fragment", 11, [4], none⟩, ⟨"m", 1, [], some 3⟩] 0 3) 0).childNodes.count 3)
      = 0 := by
  refine ⟨rfl, rfl, rfl⟩

/-- The final two writes of a non-fragment `appendChild`: push `n` onto
`a`'s children, then point `n`'s parent at `a` — stated over an arbitrary
intermediate store `st1` (the post-detach store). -/
theorem push_reparent (st1 : Store) (a n : Nat) (ha : a < st1.length)
    (hn : n < st1.length) :
    (getNode (setNode
        (setNode st1 a { getNode st1 a with childNodes := (getNode st1 a).childNodes ++ [n] }) n
        { getNode (setNode st1 a
            { getNode st1 a with childNodes := (getNode st1 a).childNodes ++ [n] }) n
          with parentNode := some a }) n).parentNode = some a
    ∧ (getNode (setNode
        (setNode st1 a { getNode st1 a with childNodes := (getNode st1 a).childNodes ++ [n] }) n
        { getNode (setNode st1 a
            { getNode st1 a with childNodes := (getNode st1 a).childNodes ++ [n] }) n
          with parentNode := some a }) a).childNodes
      = (getNode st1 a).childNodes ++ [n] := by
  have hlen2 : (setNode st1 a
      { getNode st1 a with childNodes := (getNode st1 a).childNodes ++ [n] }).length
      = st1.length := length_setNode _ _ _
  constructor
  · rw [getNode_setNode_self _ _ _ (by rw [hlen2]; exact hn)]
  · by_cases han : a = n
    · subst han
      rw [getNode_setNode_self _ _ _ (by rw [hlen2]; exact ha)]
      show (getNode (setNode st1 a
        { getNode st1 a with childNodes := (getNode st1 a).childNodes ++ [a] }) a).childNodes = _
      rw [getNode_setNode_self _ _ _ ha]
    · rw [getNode_setNode_ne _ _ _ _ (fun h => han h.symm)]
      rw [getNode_setNode_self _ _ _ ha]

/-- C7 amended: in a coherent store, for a non-DocumentFragment `N`:
after `appendChild(A, N)`, `N.parentNode` is `A` and `A`'s children contain
`N` exactly once (any insertion first detaches `N` from its current
parent, including when that parent is `A` itself); and when `N` is
currently a child of `A`, after `removeChild(A, N)`, `N.parentNode` is
`null` and `A`'s children no longer contain `N`. -/
theorem C7_mutation_invariants_amended (st : Store) (a n fuel : Nat)
    (hc : Coherent st) (ha : a < st.length) (hn : n < st.length)
    (hfrag : (getNode st n).nodeType ≠ DOCUMENT_FRAGMENT_NODE) :
    ((getNode (appendChildF fuel st a n) n).parentNode = some a
      ∧ (getNode (appendChildF fuel st a n) a).childNodes.count n = 1)
    ∧ (n ∈ (getNode st a).childNodes →
        (getNode (removeChild st a n) n).parentNode = none
        ∧ n ∉ (getNode (removeChild st a n) a).childNodes) := by
  obtain ⟨hnd, hcoh, hpv⟩ := hc
  constructor
  · -- appendChild on a non-fragment node
    rcases hpar : (getNode st n).parentNode with _ | p
    · -- no current parent: st1 = st, then push and re-parent
      have hred : appendChildF fuel st a n
          = setNode
              (setNode st a { getNode st a with childNodes := (getNode st a).childNodes ++ [n] }) n
              { getNode (setNode st a
                  { getNode st a with childNodes := (getNode st a).childNodes ++ [n] }) n
                with parentNode := some a } := by
        unfold appendChildF
        rw [if_neg hfrag, hpar]
      rw [hred]
      have hpush := push_reparent st a n ha hn
      refine ⟨hpush.1, ?_⟩
      rw [hpush.2]
      have hnotmem : n ∉ (getNode st a).childNodes := by
        intro hmem
        have h1 := (hcoh a n ha hn).mp hmem
        rw [h1] at hpar
        simp at hpar
      rw [List.count_append, List.count_eq_zero_of_not_mem hnotmem]
      simp
    · -- detach from the current parent p, then push and re-parent
      have hp : p < st.length := hpv n hn p hpar
      have hmemp : n ∈ (getNode st p).childNodes := (hcoh p n hp hn).mpr hpar
      have hR := removeChild_getNode st p n hp hn hmemp
      have hlenrm : (removeChild st p n).length = st.length := length_removeChild _ _ _
      have hred : appendChildF fuel st a n
          = setNode
              (setNode (setNode (removeChild st p n) n
                  { getNode (removeChild st p n) n with parentNode := none }) a
                { getNode (setNode (removeChild st p n) n
                    { getNode (removeChild st p n) n with parentNode := none }) a
                  with childNodes := (getNode (setNode (removeChild st p n) n
                    { getNode (removeChild st p n) n with parentNode := none }) a).childNodes ++ [n] }) n
              { getNode (setNode (setNode (removeChild st p n) n
                  { getNode (removeChild st p n) n with parentNode := none }) a
                { getNode (setNode (removeChild st p n) n
                    { getNode (removeChild st p n) n with parentNode := none }) a
                  with childNodes := (getNode (setNode (removeChild st p n) n
                    { getNode (removeChild st p n) n with parentNode := none }) a).childNodes ++ [n] }) n
                with parentNode := some a } := by
        unfold appendChildF
        rw [if_neg hfrag, hpar]
      rw [hred]
      set stD := setNode (removeChild st p n) n
        { getNode (removeChild st p n) n with parentNode := none } with hstD
      have hlenD : stD.length = st.length := by
        rw [hstD, length_setNode, hlenrm]
      have haD : a < stD.length := by rw [hlenD]; exact ha
      have hnD : n < stD.length := by rw [hlenD]; exact hn
      have hgetD : ∀ q, q < st.length →
          getNode stD q
            = { getNode st q with
                childNodes := if q = p
                  then (getNode st p).childNodes.eraseIdx
                         (jsIdxOf (getNode st p).childNodes n)
                  else (getNode st q).childNodes,
                parentNode := if q = n then none
                  else (getNode st q).parentNode } := by
        intro q hq
        rw [hstD]
        by_cases hqn : q = n
        · subst hqn
          rw [getNode_setNode_self _ _ _ (by rw [hlenrm]; exact hq), hR q hq]
          simp
        · rw [getNode_setNode_ne _ _ _ _ (fun h => hqn h.symm), hR q hq]
      have hpush := push_reparent stD a n haD hnD
      refine ⟨hpush.1, ?_⟩
      rw [hpush.2]
      have hnotmemD : n ∉ (getNode stD a).childNodes := by
        rw [hgetD a ha]
        by_cases hap : a = p
        · simp only [if_pos hap]
          subst hap
          exact not_mem_eraseIdx_jsIdxOf _ _ (hnd a ha)
        · simp only [if_neg hap]
          intro hmem
          have h1 := (hcoh a n ha hn).mp hmem
          rw [h1] at hpar
          exact hap (Option.some.inj hpar)
      rw [List.count_append, List.count_eq_zero_of_not_mem hnotmemD]
      simp
  · -- removeChild with n an actual child of a
    intro hmem
    have hR := removeChild_getNode st a n ha hn hmem
    constructor
    · rw [hR n hn]
      simp
    · rw [hR a ha]
      simp only [if_pos rfl]
      exact not_mem_eraseIdx_jsIdxOf _ _ (hnd a ha)

/-- Witness for `C7_mutation_invariants_amended`: a three-node coherent
store where `N` (id 2) is a child of `A` (id 0). -/
theorem C7_mutation_invariants_amended_witness :
    Coherent [⟨"a", 1, [2], none⟩, ⟨"b", 1, [], none⟩, ⟨"n", 1, [], some 0⟩]
    ∧ (((getNode (appendChildF 1
          [⟨"a", 1, [2], none⟩, ⟨"b", 1, [], none⟩, ⟨"n", 1, [], some 0⟩] 0 2) 2).parentNode
          = some 0
        ∧ (getNode (appendChildF 1
          [⟨"a", 1, [2], none⟩, ⟨"b", 1, [], none⟩, ⟨"n", 1, [], some 0⟩] 0 2) 0).childNodes.count 2
          = 1)
      ∧ (2 ∈ (getNode [⟨"a", 1, [2], none⟩, ⟨"b", 1, [], none⟩, ⟨"n", 1, [], some 0⟩] 0).childNodes →
          (getNode (removeChild
            [⟨"a", 1, [2], none⟩, ⟨"b", 1, [], none⟩, ⟨"n", 1, [], some 0⟩] 0 2) 2).parentNode
            = none
          ∧ 2 ∉ (getNode (removeChild
            [⟨"a", 1, [2], none⟩, ⟨"b", 1, [], none⟩, ⟨"n", 1, [], some 0⟩] 0 2) 0).childNodes)) := by
  have hc : Coherent [⟨"a", 1, [2], none⟩, ⟨"b", 1, [], none⟩, ⟨"n", 1, [], some 0⟩] := by
    refine ⟨by decide, ?_, ?_⟩
    · intro p c hp hcl
      have hp3 : p < 3 := by simpa using hp
      have hc3 : c < 3 := by simpa using hcl
      interval_cases p <;> interval_cases c <;> decide
    · intro c hcl p hpar
      have hc3 : c < 3 := by simpa using hcl
      interval_cases c
      · simp [getNode, List.getD] at hpar
      · simp [getNode, List.getD] at hpar
      · have h0 : (getNode
            [(⟨"a", 1, [2], none⟩ : NodeRec), ⟨"b", 1, [], none⟩, ⟨"n", 1, [], some 0⟩]
            2).parentNode = some 0 := rfl
        rw [h0] at hpar
        have hp0 := Option.some.inj hpar
        simp [← hp0]
  exact ⟨hc, C7_mutation_invariants_amended _ 0 2 1 hc
    (by decide) (by decide) (by decide)⟩

/-- C8: `insertBefore(node, null)` is literally
`return this.appendChild(newNode)` — same store effect, same return value
`this`; and `insertBefore` with a reference that is not currently a child
of the target parent fails with the named `NotFoundError` BEFORE performing
any mutation: the error carries the untouched entry store (the parent's
`childNodes` and the new node's `parentNode` are unchanged). -/
theorem C8_insertBefore_null_and_missing_ref (fuel : Nat) (st : Store)
    (self n ref : Nat) (h : ref ∉ (getNode st self).childNodes) :
    insertBeforeF fuel st self n none = .ok (appendChildF fuel st self n, self)
    ∧ insertBeforeF fuel st self n (some ref) = .error (notFoundMsg, st) := by
  refine ⟨by unfold insertBeforeF; rfl, ?_⟩
  have hidx : ¬ jsIdxOf (getNode st self).childNodes ref
      < (getNode st self).childNodes.length := by
    rw [jsIdxOf_lt_length_iff]
    exact h
  unfold insertBeforeF
  rw [if_neg hidx]

/-- Witness for `C8_insertBefore_null_and_missing_ref`: a three-node store
where id 2 is not a child of id 0. -/
theorem C8_insertBefore_witness :
    (2 ∉ (getNode [⟨"a", 1, [], none⟩, ⟨"n", 1, [], none⟩, ⟨"r", 1, [], none⟩] 0).childNodes)
    ∧ (insertBeforeF 1 [⟨"a", 1, [], none⟩, ⟨"n", 1, [], none⟩, ⟨"r", 1, [], none⟩] 0 1 none
        = .ok (appendChildF 1 [⟨"a", 1, [], none⟩, ⟨"n", 1, [], none⟩, ⟨"r", 1, [], none⟩] 0 1, 0)
       ∧ insertBeforeF 1 [⟨"a", 1, [], none⟩, ⟨"n", 1, [], none⟩, ⟨"r", 1, [], none⟩] 0 1 (some 2)
        = .error (notFoundMsg, [⟨"a", 1, [], none⟩, ⟨"n", 1, [], none⟩, ⟨"r", 1, [], none⟩])) :=
  ⟨by decide,
   C8_insertBefore_null_and_missing_ref 1
     [⟨"a", 1, [], none⟩, ⟨"n", 1, [], none⟩, ⟨"r", 1, [], none⟩] 0 1 2 (by decide)⟩

/-- Looking up a key just deleted from an ordered map yields nothing. -/
theorem omapGet_omapDelete (m : List (String × String)) (k : String) :
    omapGet (omapDelete m k) k = none := by
  induction m with
  | nil => rfl
  | cons kv t ih =>
      by_cases hk : kv.1 = k
      · have h2 : omapDelete (kv :: t) k = omapDelete t k := by
          simp [omapDelete, List.filter_cons, hk]
        rw [h2]
        exact ih
      · have h2 : omapDelete (kv :: t) k = kv :: omapDelete t k := by
          simp [omapDelete, List.filter_cons, hk]
        rw [h2]
        simpa [omapGet, List.find?, hk] using ih

/-- Setting a key makes it retrievable. -/
theorem omapGet_omapSet_self (m : List (String × String)) (k v : String) :
    omapGet (omapSet m k v) k = some v := by
  induction m with
  | nil => simp [omapSet, omapGet, List.find?]
  | cons kv t ih =>
      by_cases hk : kv.1 = k
      · simp [omapSet, omapGet, hk, List.find?]
      · simpa [omapSet, omapGet, List.find?, hk] using ih

/-- Setting under a namespace makes the value retrievable namespaced. -/
theorem getAttributeNS_after_nsMapSet
    (l : List (String × List (String × String))) (ns k v : String) :
    (match (nsMapSet l ns k v).find? (fun kv => kv.1 = ns) with
      | some kv => omapGet kv.2 k
      | none => none) = some v := by
  induction l with
  | nil => simp [nsMapSet, List.find?, omapGet]
  | cons kv t ih =>
      by_cases hns : kv.1 = ns
      · simp [nsMapSet, hns, List.find?, omapGet_omapSet_self]
      · simpa [nsMapSet, List.find?, hns] using ih

/-- After `removeAttribute(name)`, no namespace map still has the name. -/
theorem hasAttributeNS_after_remove
    (l : List (String × List (String × String))) (nm nsq : String) :
    (match ((l.map (fun kv => (kv.1, omapDelete kv.2 nm))).filter
        (fun kv => ¬ kv.2.isEmpty)).find? (fun kv => kv.1 = nsq) with
      | some kv => (omapGet kv.2 nm).isSome
      | none => false) = false := by
  induction l with
  | nil => rfl
  | cons kv t ih =>
      by_cases he : (omapDelete kv.2 nm).isEmpty
      · simpa [List.filter, he] using ih
      · by_cases hns : kv.1 = nsq
        · simp [List.filter, he, List.find?, hns, omapGet_omapDelete]
        · simpa [List.filter, he, List.find?, hns] using ih

/-- C10: `getAttribute`, `hasAttribute` and `getAttributeNode` consult only
the element's default-namespace map `_attributes`.  An attribute present
only via `setAttributeNS(ns, name, value)` — i.e. on an element whose
default map lacks the name — is invisible to all three (while being
perfectly retrievable through `getAttributeNS`), and `removeAttribute(name)`
deletes the name from the default map AND from every per-namespace map. -/
theorem C10_ns_attributes_invisible_to_default_accessors
    (e : ElemState) (ns k v : String) (h : hasAttribute e k = false) :
    getAttribute (setAttributeNS e ns k v) k = none
    ∧ hasAttribute (setAttributeNS e ns k v) k = false
    ∧ getAttributeNode (setAttributeNS e ns k v) k = none
    ∧ getAttributeNS (setAttributeNS e ns k v) ns k = some v
    ∧ (∀ (e2 : ElemState) (nm nsq : String),
        hasAttribute (removeAttribute e2 nm) nm = false
        ∧ hasAttributeNS (removeAttribute e2 nm) nsq nm = false) := by
  have hget : omapGet e.attrs k = none := by
    by_cases hg : (omapGet e.attrs k).isSome
    · rw [hasAttribute] at h
      rw [h] at hg
      cases hg
    · exact Option.not_isSome_iff_eq_none.mp hg
  have hfind : e.attrs.find? (fun kv => kv.1 = k) = none := by
    rcases hf : e.attrs.find? (fun kv => kv.1 = k) with _ | kv
    · exact hf
    · rw [omapGet, hf] at hget
      cases hget
  refine ⟨?_, ?_, ?_, ?_, ?_⟩
  · show omapGet e.attrs k = none
    exact hget
  · show (omapGet e.attrs k).isSome = false
    rw [hget]
    rfl
  · show e.attrs.find? (fun kv => kv.1 = k) = none
    exact hfind
  · exact getAttributeNS_after_nsMapSet e.attrsNS ns k v
  · intro e2 nm nsq
    constructor
    · show (omapGet (omapDelete e2.attrs nm) nm).isSome = false
      rw [omapGet_omapDelete]
      rfl
    · exact hasAttributeNS_after_remove e2.attrsNS nm nsq

/-- Witness for `C10_ns_attributes_invisible_to_default_accessors`: an
element with one default attribute `class` (so `width` is absent from the
default map) receiving `setAttributeNS(svgNS, "width", "5")`. -/
theorem C10_ns_attributes_witness :
    hasAttribute ⟨[("class", "a")], [], []⟩ "width" = false
    ∧ (getAttribute (setAttributeNS ⟨[("class", "a")], [], []⟩
          "http://www.w3.org/2000/svg" "width" "5") "width" = none
      ∧ hasAttribute (setAttributeNS ⟨[("class", "a")], [], []⟩
          "http://www.w3.org/2000/svg" "width" "5") "width" = false) :=
  ⟨by decide,
   ⟨(C10_ns_attributes_invisible_to_default_accessors ⟨[("class", "a")], [], []⟩
      "http://www.w3.org/2000/svg" "width" "5" (by decide)).1,
    (C10_ns_attributes_invisible_to_default_accessors ⟨[("class", "a")], [], []⟩
      "http://www.w3.org/2000/svg" "width" "5" (by decide)).2.1⟩⟩

end Domish
